import Mathlib

/-!
Verification of the worker-side runtime in `python/bullmq/worker.py`.

The development shallowly embeds the worker's operations:

* `processJob` (source lines 160-182) is embedded as a pure function from the
  outcomes of its external calls (the user handler, the store's
  `moveToCompleted` / `moveToFailed` transitions) and the values the two reads
  of `self.forceClosing` observe, to the ordered list of observable actions the
  task performs (active-set mutation, store calls, emitted events).
* `getNextJob` (lines 135-158) is embedded as a pure function from the results
  of `scripts.moveToActive` and `bclient.brpoplpush` to the list of store calls
  it makes and its result; the unguarded tuple-unpack of a `None` result in
  phase B is modelled as `Except.error`.
* `extendLocks` (lines 184-199) is embedded as a pure function from the current
  active set and the pipeline outcome to the list of actions of one tick.
* The `run` scheduling loop (lines 95-133) together with `close` (lines
  214-224) is embedded as a small-step transition system `Step` on
  `WorkerState`; in-flight members of `self.processing` are tracked with a
  `TaskState` recording how far each fetch/process task has progressed, so that
  the size of `self.jobs` is the number of process tasks currently between
  their `jobs.add` and `jobs.remove` calls.

Job payloads, results, error values, job ids and tokens are represented by
natural numbers; none of the verified properties depends on their structure.
-/

set_option autoImplicit false

/-- Observable actions of one `processJob` task, in program order. -/
inductive PAction where
  | addActive
  | callProcessor
  | callMoveToCompleted
  | callMoveToFailed
  | emitCompleted (result : Nat)
  | emitFailed (err : Nat)
  | emitError (err : Nat)
  | removeActive
  deriving DecidableEq, Repr

/-- The `except` branch of `processJob` (worker.py lines 167-180): print the
error, call `moveToFailed` unless `forceClosing` (the read at line 172 sees
`fc2`), then emit `failed` with the caught error; if the `moveToFailed` call
itself raises, the inner handler emits a generic `error` event with the store
error instead. `failRes` is the outcome of the `moveToFailed` call when it is
made. -/
def failBranch (fc2 : Bool) (failRes : Except Nat Unit) (err : Nat) : List PAction :=
  if fc2 then [.emitFailed err]
  else
    match failRes with
    | .ok _ => [.callMoveToFailed, .emitFailed err]
    | .error e2 => [.callMoveToFailed, .emitError e2]

/-- The body of the outer `try` of `processJob` after the handler call
(worker.py lines 163-180): on handler success, call `moveToCompleted` unless
`forceClosing` (read at line 164 sees `fc1`) and emit `completed`; a raising
`moveToCompleted` transfers control to the `except` branch with the store
error; a raising handler transfers control to the `except` branch with the
handler error. -/
def processCore (fc1 fc2 : Bool) (handler : Except Nat Nat)
    (completeRes failRes : Except Nat Unit) : List PAction :=
  match handler with
  | .ok r =>
      if fc1 then [.emitCompleted r]
      else
        match completeRes with
        | .ok _ => [.callMoveToCompleted, .emitCompleted r]
        | .error e => .callMoveToCompleted :: failBranch fc2 failRes e
  | .error e => failBranch fc2 failRes e

/-- One `processJob(job, token)` task (worker.py lines 160-182) as the ordered
list of its observable actions: add `(job, token)` to `self.jobs`, invoke the
handler, run the completion/failure logic, and remove the pair in the
`finally` block. `fc1` and `fc2` are the values of `self.forceClosing` at its
two read points (lines 164 and 172); `handler`, `completeRes`, `failRes` are
the outcomes of the awaited external calls. -/
def processJob (fc1 fc2 : Bool) (handler : Except Nat Nat)
    (completeRes failRes : Except Nat Unit) : List PAction :=
  .addActive :: .callProcessor :: (processCore fc1 fc2 handler completeRes failRes ++ [.removeActive])

lemma failBranch_no_active (fc2 : Bool) (failRes : Except Nat Unit) (err : Nat) :
    PAction.addActive ∉ failBranch fc2 failRes err ∧
      PAction.removeActive ∉ failBranch fc2 failRes err := by
  cases fc2 <;> cases failRes <;> simp [failBranch]

lemma processCore_no_active (fc1 fc2 : Bool) (handler : Except Nat Nat)
    (completeRes failRes : Except Nat Unit) :
    PAction.addActive ∉ processCore fc1 fc2 handler completeRes failRes ∧
      PAction.removeActive ∉ processCore fc1 fc2 handler completeRes failRes := by
  cases handler with
  | error e => exact failBranch_no_active fc2 failRes e
  | ok r =>
      cases fc1 with
      | true => simp [processCore]
      | false =>
          cases completeRes with
          | ok u => simp [processCore]
          | error e =>
              have h := failBranch_no_active fc2 failRes e
              simp [processCore, h.1, h.2]

/-- C2: if `forceClosing` is already set when the handler finishes (so both
reads of the flag observe `true`), the task performs neither `moveToCompleted`
nor `moveToFailed`, yet still emits `completed` with the result when the
handler succeeds and `failed` with the error when the handler throws. -/
theorem processJob_forceClosing_skips_store_still_emits
    (handler : Except Nat Nat) (completeRes failRes : Except Nat Unit) :
    PAction.callMoveToCompleted ∉ processJob true true handler completeRes failRes ∧
    PAction.callMoveToFailed ∉ processJob true true handler completeRes failRes ∧
    (∀ r : Nat, handler = .ok r →
      PAction.emitCompleted r ∈ processJob true true handler completeRes failRes) ∧
    (∀ e : Nat, handler = .error e →
      PAction.emitFailed e ∈ processJob true true handler completeRes failRes) := by
  cases handler <;> simp [processJob, processCore, failBranch]

/-- Witness for C2 at a concrete input: handler returns result 7. -/
theorem processJob_forceClosing_skips_store_still_emits_witness :
    PAction.callMoveToCompleted ∉ processJob true true (.ok 7) (.ok ()) (.ok ()) ∧
    PAction.callMoveToFailed ∉ processJob true true (.ok 7) (.ok ()) (.ok ()) ∧
    (∀ r : Nat, (Except.ok 7 : Except Nat Nat) = Except.ok r →
      PAction.emitCompleted r ∈ processJob true true (.ok 7) (.ok ()) (.ok ())) ∧
    (∀ e : Nat, (Except.ok 7 : Except Nat Nat) = Except.error e →
      PAction.emitFailed e ∈ processJob true true (.ok 7) (.ok ()) (.ok ())) :=
  processJob_forceClosing_skips_store_still_emits (.ok 7) (.ok ()) (.ok ())

/-- C3: in every execution of `processJob`, whatever the outcomes of the
handler and the store calls and whatever `forceClosing` reads observe, the
trace is exactly one `addActive` (before the handler invocation), then a
middle section containing neither active-set mutation, then one final
`removeActive`: the pair is added before the handler runs, is removed exactly
once when the task finishes, and is a member for the whole interval between. -/
theorem processJob_active_set_bracketed (fc1 fc2 : Bool) (handler : Except Nat Nat)
    (completeRes failRes : Except Nat Unit) :
    ∃ mid : List PAction,
      processJob fc1 fc2 handler completeRes failRes =
        PAction.addActive :: PAction.callProcessor :: (mid ++ [PAction.removeActive]) ∧
      PAction.addActive ∉ mid ∧ PAction.removeActive ∉ mid := by
  refine ⟨processCore fc1 fc2 handler completeRes failRes, rfl, ?_, ?_⟩
  · exact (processCore_no_active fc1 fc2 handler completeRes failRes).1
  · exact (processCore_no_active fc1 fc2 handler completeRes failRes).2

/-- C5: when the handler throws error `e`, `forceClosing` is not set at the
line-172 read, and the `moveToFailed` call itself raises `e2`, the task emits
the generic `error` event with the store error, emits no `failed` event, and
still runs its cleanup and returns normally (its trace ends with
`removeActive`; `processJob` is total, so nothing propagates). -/
theorem processJob_fail_store_error_suppressed (fc1 : Bool)
    (completeRes : Except Nat Unit) (e e2 : Nat) :
    PAction.emitError e2 ∈ processJob fc1 false (.error e) completeRes (.error e2) ∧
    (∀ x : Nat, PAction.emitFailed x ∉ processJob fc1 false (.error e) completeRes (.error e2)) ∧
    (processJob fc1 false (.error e) completeRes (.error e2)).getLast? =
      some PAction.removeActive := by
  refine ⟨?_, ?_, ?_⟩ <;> simp [processJob, processCore, failBranch]

/-- Witness for C5 at a concrete input: handler error 3, store error 4. -/
theorem processJob_fail_store_error_suppressed_witness :
    PAction.emitError 4 ∈ processJob false false (.error 3) (.ok ()) (.error 4) ∧
    (∀ x : Nat, PAction.emitFailed x ∉ processJob false false (.error 3) (.ok ()) (.error 4)) ∧
    (processJob false false (.error 3) (.ok ()) (.error 4)).getLast? =
      some PAction.removeActive :=
  processJob_fail_store_error_suppressed false (.ok ()) 3 4

/-- C9: when the handler succeeds with result `r` but `moveToCompleted` raises
store error `e` (so `forceClosing` was unset at the line-164 read), no
`completed` event is emitted; instead the failure branch runs: `moveToFailed`
is invoked when `forceClosing` is still unset at the line-172 read, and a
`failed` event carrying the store error `e` is emitted when `moveToFailed`
succeeds or is skipped by `forceClosing`. -/
theorem processJob_complete_error_runs_fail_branch (fc2 : Bool)
    (failRes : Except Nat Unit) (r e : Nat) :
    (∀ x : Nat, PAction.emitCompleted x ∉ processJob false fc2 (.ok r) (.error e) failRes) ∧
    (fc2 = false → PAction.callMoveToFailed ∈ processJob false fc2 (.ok r) (.error e) failRes) ∧
    ((failRes = .ok () ∨ fc2 = true) →
      PAction.emitFailed e ∈ processJob false fc2 (.ok r) (.error e) failRes) := by
  cases fc2 <;> cases failRes <;> simp [processJob, processCore, failBranch]

/-- Witness for C9 at a concrete input: result 5, store error 6. -/
theorem processJob_complete_error_runs_fail_branch_witness :
    (∀ x : Nat, PAction.emitCompleted x ∉ processJob false false (.ok 5) (.error 6) (.ok ())) ∧
    ((false : Bool) = false →
      PAction.callMoveToFailed ∈ processJob false false (.ok 5) (.error 6) (.ok ())) ∧
    ((Except.ok () = (Except.ok () : Except Nat Unit) ∨ (false : Bool) = true) →
      PAction.emitFailed 6 ∈ processJob false false (.ok 5) (.error 6) (.ok ())) :=
  processJob_complete_error_runs_fail_branch false (.ok ()) 5 6

/-- A hydrated job as produced by `Job.fromJSON(self.client, job, job_id)`
(worker.py line 158): the raw job record and the job id. -/
structure JobRef where
  raw : Nat
  id : Nat
  deriving DecidableEq, Repr

/-- Store calls made by one `getNextJob` invocation, in program order. -/
inductive FAction where
  | moveToActive (byId : Option Nat)
  | brpoplpush (timeoutSec : ℚ)
  deriving DecidableEq, Repr

/-- The millisecond operand of the blocking-wait timeout (worker.py line 151):
the integer minimum of 5000 and, when a delayed-job due time is known and
truthy, the time remaining until it becomes due. -/
def blockTimeoutMs (delay_until : Option Int) (now : Int) : Int :=
  min (match delay_until with
       | some d => if d = 0 then 5000 else d - now
       | none => 5000) 5000

/-- The blocking-wait timeout in seconds (worker.py lines 151-152):
`min(delay_until - int(time.time() * 1000) if delay_until else 5000, 5000) / 1000`. -/
def blockTimeout (delay_until : Option Int) (now : Int) : ℚ :=
  (blockTimeoutMs delay_until now : ℚ) / 1000

/-- Unpacking of the phase-A `moveToActive` result guarded by `if result:`
(worker.py lines 143-147): `job` and `job_id` stay `None` when the result is
`None`. -/
def claimResult (r : Option (Option Nat × Option Nat)) : Option Nat × Option Nat :=
  match r with
  | some p => p
  | none => (none, none)

/-- The final return of `getNextJob` (worker.py lines 157-158): hydrate and
return the job when both `job` and `job_id` are truthy, otherwise fall off the
end of the function and return `None`. -/
def finalReturn (job job_id : Option Nat) : Option JobRef :=
  match job, job_id with
  | some j, some i => some ⟨j, i⟩
  | _, _ => none

/-- One `getNextJob(token)` invocation (worker.py lines 135-158) as the list
of store calls it makes and its outcome. `phaseA` is the result of the
non-blocking `moveToActive(token)`, `brpopRes` the id delivered by
`brpoplpush` within the timeout (`none` when the timeout elapses), `phaseB i`
the result of `moveToActive(token, i)`, and `now` the current time in
milliseconds. In phase B the code unpacks the `moveToActive` result without
the `if result:` guard of phase A, so a `None` result raises a `TypeError`,
modelled as `Except.error ()`. `delay_until` is initialised to `None` at line
145 and never reassigned. -/
def getNextJob (phaseA : Option (Option Nat × Option Nat)) (brpopRes : Option Nat)
    (phaseB : Nat → Option (Option Nat × Option Nat)) (now : Int) :
    List FAction × Except Unit (Option JobRef) :=
  let a := claimResult phaseA
  let delay_until : Option Int := none
  if a.1 = none then
    let timeout := blockTimeout delay_until now
    match brpopRes with
    | none => ([.moveToActive none, .brpoplpush timeout], Except.ok none)
    | some i =>
        match phaseB i with
        | none =>
            ([.moveToActive none, .brpoplpush timeout, .moveToActive (some i)],
              Except.error ())
        | some (j2, i2) =>
            ([.moveToActive none, .brpoplpush timeout, .moveToActive (some i)],
              Except.ok (finalReturn j2 i2))
  else
    ([.moveToActive none], Except.ok (finalReturn a.1 a.2))

/-- C6: when phase A claims no job, `getNextJob` issues the blocking wait with
timeout `blockTimeout`, which is the lesser of 5 seconds and the remaining
delay when a delayed-job due time is known and equals 5 seconds here since
this function never learns one (`delay_until` stays `None`); a delivered id is
re-claimed by that identifier; an elapsed timeout yields the
no-job-available result `Except.ok none`, not an error. -/
theorem getNextJob_blocking_phase (phaseA : Option (Option Nat × Option Nat))
    (brpopRes : Option Nat) (phaseB : Nat → Option (Option Nat × Option Nat)) (now : Int)
    (hA : (claimResult phaseA).1 = none) :
    FAction.brpoplpush (blockTimeout none now) ∈ (getNextJob phaseA brpopRes phaseB now).1 ∧
    blockTimeout none now = 5 ∧
    (∀ d : Int, d ≠ 0 →
      blockTimeout (some d) now = min (((d : ℚ) - (now : ℚ)) / 1000) 5) ∧
    (∀ i : Nat, brpopRes = some i →
      FAction.moveToActive (some i) ∈ (getNextJob phaseA brpopRes phaseB now).1) ∧
    (brpopRes = none → (getNextJob phaseA brpopRes phaseB now).2 = Except.ok none) := by
  have htimeout : ∀ d : Int, d ≠ 0 →
      blockTimeout (some d) now = min (((d : ℚ) - (now : ℚ)) / 1000) 5 := by
    intro d hd
    have hms : blockTimeoutMs (some d) now = min (d - now) 5000 := by
      simp [blockTimeoutMs, hd]
    have h1 : ((min (d - now) 5000 : Int) : ℚ) = min ((d : ℚ) - (now : ℚ)) 5000 := by
      push_cast
      rfl
    rw [blockTimeout, hms, h1, ← min_div_div_right (by norm_num : (0:ℚ) ≤ 1000)]
    norm_num
  refine ⟨?_, by norm_num [blockTimeout, blockTimeoutMs], htimeout, ?_, ?_⟩
  · rcases h : brpopRes with _ | i
    · simp [getNextJob, hA, h]
    · rcases h2 : phaseB i with _ | ⟨j2, i2⟩ <;> simp [getNextJob, hA, h, h2]
  · rintro i rfl
    rcases h2 : phaseB i with _ | ⟨j2, i2⟩ <;> simp [getNextJob, hA, h2]
  · rintro rfl
    simp [getNextJob, hA]

/-- Witness for C6 at a concrete input: empty backlog, nothing delivered. -/
theorem getNextJob_blocking_phase_witness :
    FAction.brpoplpush (blockTimeout none 0) ∈
      (getNextJob none none (fun _ => none) 0).1 ∧
    blockTimeout none 0 = 5 ∧
    (∀ d : Int, d ≠ 0 →
      blockTimeout (some d) 0 = min (((d : ℚ) - ((0 : Int) : ℚ)) / 1000) 5) ∧
    (∀ i : Nat, (none : Option Nat) = some i →
      FAction.moveToActive (some i) ∈ (getNextJob none none (fun _ => none) 0).1) ∧
    ((none : Option Nat) = none → (getNextJob none none (fun _ => none) 0).2 = Except.ok none) :=
  getNextJob_blocking_phase none none (fun _ => none) 0 rfl

/-- C10: when phase A claims no job, the blocking wait delivers id `i`, and
the claim by identifier `moveToActive(token, i)` returns `None` (the job was
taken by another worker meanwhile), `getNextJob` raises (the unguarded tuple
unpack of `None`) instead of returning the no-job-available result. -/
theorem getNextJob_claim_by_id_miss_raises (phaseA : Option (Option Nat × Option Nat))
    (i : Nat) (phaseB : Nat → Option (Option Nat × Option Nat)) (now : Int)
    (hA : (claimResult phaseA).1 = none) (hB : phaseB i = none) :
    (getNextJob phaseA (some i) phaseB now).2 = Except.error () := by
  simp [getNextJob, hA, hB]

/-- Witness for C10 at a concrete input: id 9 delivered, claim by id misses. -/
theorem getNextJob_claim_by_id_miss_raises_witness :
    (getNextJob none (some 9) (fun _ => none) 0).2 = Except.error () :=
  getNextJob_claim_by_id_miss_raises none 9 (fun _ => none) 0 rfl rfl

/-- Actions of one `extendLocks` tick, in program order. -/
inductive EAction where
  | extendLock (jobId : Nat) (token : Nat) (durationMs : Nat)
  | executePipeline
  | logRenewError
  deriving DecidableEq, Repr

/-- The period with which the lock-renewal timer fires, in seconds
(worker.py lines 99-100): `(self.opts.get("lockDuration") / 2) / 1000`. -/
def lockRenewPeriodSeconds (lockDuration : ℚ) : ℚ :=
  lockDuration / 2 / 1000

/-- One `extendLocks` tick (worker.py lines 184-199) as the list of actions it
performs and the active set it leaves behind. The body queues one
`extendLock(job.id, token, lockDuration, multi)` per `(job, token)` member of
`self.jobs` into a single pipeline, awaits one `multi.execute()`, and catches
any exception, logging it and returning normally; `execResult` is the outcome
of the batched request. The function never writes `self.jobs`, so the
returned active set is the input set unchanged. -/
def extendLocks (jobs : List (Nat × Nat)) (lockDuration : Nat)
    (execResult : Except Unit Unit) : List EAction × List (Nat × Nat) :=
  ((jobs.map fun p => EAction.extendLock p.1 p.2 lockDuration) ++
      [EAction.executePipeline] ++
      (match execResult with
       | .ok _ => []
       | .error _ => [.logRenewError]),
    jobs)

/-- C8: the renewal timer's period is half the configured lease duration
(`lockRenewPeriodSeconds` in milliseconds is `lockDuration / 2`); each tick
performs exactly one batched execute covering an `extendLock` entry for every
member of the active set; the tick returns normally with the active set
unchanged whatever the batch outcome, logging the error when the batched
request fails, so the next tick retries for whatever is then active. -/
theorem extendLocks_batched_and_resilient (jobs : List (Nat × Nat))
    (lockDuration : Nat) (execResult : Except Unit Unit) :
    (∀ q : ℚ, lockRenewPeriodSeconds q * 1000 = q / 2) ∧
    List.count EAction.executePipeline (extendLocks jobs lockDuration execResult).1 = 1 ∧
    (∀ p ∈ jobs,
      EAction.extendLock p.1 p.2 lockDuration ∈ (extendLocks jobs lockDuration execResult).1) ∧
    (extendLocks jobs lockDuration execResult).2 = jobs ∧
    (execResult = .error () →
      EAction.logRenewError ∈ (extendLocks jobs lockDuration execResult).1) := by
  refine ⟨?_, ?_, ?_, rfl, ?_⟩
  · intro q
    rw [lockRenewPeriodSeconds]
    ring
  · have hmap : List.count EAction.executePipeline
        (jobs.map fun p => EAction.extendLock p.1 p.2 lockDuration) = 0 := by
      rw [List.count_eq_zero]
      intro h
      rcases List.mem_map.mp h with ⟨p, _, hp⟩
      exact EAction.noConfusion hp
    cases execResult <;>
      simp [extendLocks, List.count_append, hmap, List.count_singleton]
  · intro p hp
    have hm : EAction.extendLock p.1 p.2 lockDuration ∈
        jobs.map fun q => EAction.extendLock q.1 q.2 lockDuration :=
      List.mem_map.mpr ⟨p, hp, rfl⟩
    cases execResult <;>
      exact List.mem_append_left _ (List.mem_append_left _ hm)
  · rintro rfl
    simp [extendLocks]

/-- Witness for C8 at a concrete input: one active job, failing batch. -/
theorem extendLocks_batched_and_resilient_witness :
    (∀ q : ℚ, lockRenewPeriodSeconds q * 1000 = q / 2) ∧
    List.count EAction.executePipeline
      (extendLocks [(1, 2)] 30000 (Except.error ())).1 = 1 ∧
    (∀ p ∈ [((1 : Nat), (2 : Nat))],
      EAction.extendLock p.1 p.2 30000 ∈ (extendLocks [(1, 2)] 30000 (Except.error ())).1) ∧
    (extendLocks [(1, 2)] 30000 (Except.error ())).2 = [(1, 2)] ∧
    ((Except.error () : Except Unit Unit) = Except.error () →
      EAction.logRenewError ∈ (extendLocks [(1, 2)] 30000 (Except.error ())).1) :=
  extendLocks_batched_and_resilient [(1, 2)] 30000 (Except.error ())

/-- Progress of one member of `self.processing` (an asyncio task spawned at
worker.py lines 109 or 113). A fetch task is a `getNextJob` invocation, which
either finishes with an optional job or raises (see `getNextJob`); a process
task is a `processJob` invocation, which first runs `jobs.add` (becoming
`procActive`), later runs the `finally` block's `jobs.remove` and finishes
(`procDone`), and never raises (`processJob` is total); its implicit return
value is `None`. -/
inductive TaskState where
  | fetchPending
  | fetchDone (res : Option Nat)
  | fetchRaised
  | procSpawned
  | procActive
  | procDone
  deriving DecidableEq, Repr

/-- A task that `asyncio.wait` may report in the `done` partition. -/
def TaskState.isFinished : TaskState → Bool
  | .fetchDone _ => true
  | .fetchRaised => true
  | .procDone => true
  | _ => false

/-- Whether a task is a fetch (`getNextJob`) operation. -/
def TaskState.isFetch : TaskState → Bool
  | .fetchPending => true
  | .fetchDone _ => true
  | .fetchRaised => true
  | _ => false

/-- The value `jobTask.result()` delivers for a finished, non-raising task:
a fetch task returns the optional job, a `processJob` task returns `None`. -/
def TaskState.resultValue : TaskState → Option Nat
  | .fetchDone r => r
  | _ => none

/-- Where control of the `run` coroutine currently is. `notStarted` is before
`run()` is invoked; `head` is the top of the `while` loop (line 107);
`awaiting` is inside the `await getFirstCompleted(...)` at line 118, where
spawned tasks actually execute; `stopped` is after the cleanup at lines
131-133; `errored` is after the `return` at line 129 in the `except` branch. -/
inductive Phase where
  | notStarted
  | head
  | awaiting
  | stopped
  | errored
  deriving DecidableEq, Repr

/-- The worker's state visible to the claims: the lifecycle flags, whether the
lock-renewal and stalled-check timers are running, the loop-local candidate
`job`, and the multiset of in-flight tasks in `self.processing` with their
progress. `self.jobs` is determined by it: one entry per `procActive` task. -/
structure WorkerState where
  running : Bool
  closing : Bool
  forceClosing : Bool
  closed : Bool
  timersActive : Bool
  job : Option Nat
  processing : Multiset TaskState
  phase : Phase
  deriving DecidableEq

/-- The worker state right after `__init__` (worker.py lines 85-90). -/
def initState : WorkerState :=
  { running := false, closing := false, forceClosing := false, closed := false,
    timersActive := false, job := none, processing := 0, phase := .notStarted }

/-- The spawning conditionals at the top of one loop iteration (worker.py
lines 108-115): when no candidate job is held, a fetch task is spawned only if
the pending set is below the concurrency limit and the worker is not closing;
when a candidate job is held, a process task is spawned unconditionally. The
two guards are mutually exclusive, so at most one task is added. -/
def spawnAdds (N : ℕ) (s : WorkerState) : Multiset TaskState :=
  match s.job with
  | none =>
      if s.processing.card < N ∧ s.closing = false then
        TaskState.fetchPending ::ₘ s.processing
      else s.processing
  | some _ => TaskState.procSpawned ::ₘ s.processing

/-- The `break` condition at line 121: `(job is None or len(self.processing)
== 0) and self.closing`, evaluated on the first-completed result and the
pending set left by `getFirstCompleted`. -/
def breakCond (s : WorkerState) (res : Option Nat) (rem : Multiset TaskState) : Prop :=
  (res = none ∨ rem.card = 0) ∧ s.closing = true

instance (s : WorkerState) (res : Option Nat) (rem : Multiset TaskState) :
    Decidable (breakCond s res rem) := by
  unfold breakCond
  infer_instance

/-- One atomic step of the worker incarnation: the `run` coroutine's loop
bookkeeping (worker.py lines 95-133), cooperative progress of one spawned task
while `run` is suspended in the `await` at line 118, completion of that
`await` through `getFirstCompleted` (lines 227-236), or a `close` call (lines
214-224). `N` is the configured concurrency limit. In `awaitRaised`, a
first-iterated done task raised, so `getFirstCompleted` catches the exception
and returns only the pending set; the tuple unpack `job, pending = ...` in
`run` then raises (unless that set happens to hold exactly two elements,
excluded by the guard and impossible in reachable states), so control moves to
the `except` branch with `self.processing` unassigned. `awaitEmpty` is
`asyncio.wait` raising on an empty task set. -/
inductive Step (N : ℕ) : WorkerState → WorkerState → Prop where
  | runStart (s : WorkerState) :
      s.phase = .notStarted → s.running = false →
      Step N s { s with running := true, timersActive := true, job := none, phase := .head }
  | headExit (s : WorkerState) :
      s.phase = .head → s.closed = true →
      Step N s { s with running := false, timersActive := false, phase := .stopped }
  | spawn (s : WorkerState) :
      s.phase = .head → s.closed = false →
      Step N s { s with processing := spawnAdds N s, phase := .awaiting }
  | fetchFinish (s : WorkerState) (res : Option Nat) :
      s.phase = .awaiting → TaskState.fetchPending ∈ s.processing →
      Step N s { s with processing :=
        TaskState.fetchDone res ::ₘ s.processing.erase .fetchPending }
  | fetchRaise (s : WorkerState) :
      s.phase = .awaiting → TaskState.fetchPending ∈ s.processing →
      Step N s { s with processing :=
        TaskState.fetchRaised ::ₘ s.processing.erase .fetchPending }
  | procStart (s : WorkerState) :
      s.phase = .awaiting → TaskState.procSpawned ∈ s.processing →
      Step N s { s with processing :=
        TaskState.procActive ::ₘ s.processing.erase .procSpawned }
  | procFinish (s : WorkerState) :
      s.phase = .awaiting → TaskState.procActive ∈ s.processing →
      Step N s { s with processing :=
        TaskState.procDone ::ₘ s.processing.erase .procActive }
  | awaitContinue (s : WorkerState) (done : Multiset TaskState) (first : TaskState) :
      s.phase = .awaiting → done ≤ s.processing → first ∈ done →
      (∀ t ∈ done, t.isFinished = true) → first ≠ .fetchRaised →
      ¬ breakCond s first.resultValue (s.processing - done) →
      Step N s { s with processing := s.processing - done, job := first.resultValue, phase := .head }
  | awaitBreak (s : WorkerState) (done : Multiset TaskState) (first : TaskState) :
      s.phase = .awaiting → done ≤ s.processing → first ∈ done →
      (∀ t ∈ done, t.isFinished = true) → first ≠ .fetchRaised →
      breakCond s first.resultValue (s.processing - done) →
      Step N s { s with processing := s.processing - done, job := first.resultValue, running := false, timersActive := false, phase := .stopped }
  | awaitRaised (s : WorkerState) (done : Multiset TaskState) :
      s.phase = .awaiting → done ≤ s.processing → TaskState.fetchRaised ∈ done →
      (∀ t ∈ done, t.isFinished = true) → (s.processing - done).card ≠ 2 →
      Step N s { s with phase := .errored }
  | awaitEmpty (s : WorkerState) :
      s.phase = .awaiting → s.processing = 0 →
      Step N s { s with phase := .errored }
  | close (s : WorkerState) (force : Bool) :
      Step N s { s with closing := true, forceClosing := s.forceClosing || force }

/-- States of one worker incarnation reachable from `initState`. -/
inductive Reachable (N : ℕ) : WorkerState → Prop where
  | init : Reachable N initState
  | step (s s' : WorkerState) : Reachable N s → Step N s s' → Reachable N s'

/-- Number of fetch operations in the pending-operations set. -/
def fetchCount (m : Multiset TaskState) : ℕ :=
  (m.filter fun t => t.isFetch = true).card

/-- Size of `self.jobs`: `processJob` adds one pair on entry and removes it in
its `finally` block, so the active set has exactly one entry per process task
currently in its `procActive` stage. -/
def activeJobsCount (m : Multiset TaskState) : ℕ :=
  (m.filter fun t => t = TaskState.procActive).card

/-- Size invariant of the pending-operations set: the loop adds at most one
task per iteration (the two spawn guards at lines 108 and 112 are mutually
exclusive) and every completed `await` removes at least one, so the set is
empty at the loop head and holds at most one task while the loop is suspended
in the `await`. -/
def SizeInv (s : WorkerState) : Prop :=
  ((s.phase = .awaiting ∨ s.phase = .errored) → s.processing.card ≤ 1) ∧
  ((s.phase = .notStarted ∨ s.phase = .head ∨ s.phase = .stopped) →
    s.processing.card = 0)

/-- While the loop is at its head or suspended in the `await` (and on the
`except` exit path), `running` is set and the two timers have been started and
not stopped. -/
def LiveInv (s : WorkerState) : Prop :=
  (s.phase = .head ∨ s.phase = .awaiting ∨ s.phase = .errored) →
    (s.running = true ∧ s.timersActive = true)

lemma spawnAdds_card_le (N : ℕ) (s : WorkerState) :
    (spawnAdds N s).card ≤ s.processing.card + 1 := by
  unfold spawnAdds
  cases s.job with
  | none =>
      by_cases h : s.processing.card < N ∧ s.closing = false
      · simp [h]
      · simp [h]
  | some j => simp


lemma card_replace {m : Multiset TaskState} {t : TaskState} (t' : TaskState)
    (hm : t ∈ m) : (t' ::ₘ m.erase t).card = m.card := by
  rw [Multiset.card_cons, Multiset.card_erase_of_mem hm, Nat.pred_eq_sub_one]
  have : 0 < m.card := Multiset.card_pos_iff_exists_mem.mpr ⟨t, hm⟩
  omega

lemma step_sizeInv {N : ℕ} {s s' : WorkerState} (h : Step N s s') (hs : SizeInv s) :
    SizeInv s' := by
  obtain ⟨h1, h2⟩ := hs
  cases h with
  | runStart hp hr =>
      exact ⟨fun hph => by simp at hph, fun _ => h2 (Or.inl hp)⟩
  | headExit hp hc =>
      exact ⟨fun hph => by simp at hph, fun _ => h2 (Or.inr (Or.inl hp))⟩
  | spawn hp hc =>
      refine ⟨fun _ => ?_, fun hph => by simp at hph⟩
      have ha := spawnAdds_card_le N s
      have hc0 : s.processing.card = 0 := h2 (Or.inr (Or.inl hp))
      show (spawnAdds N s).card ≤ 1
      omega
  | fetchFinish res hp hm =>
      refine ⟨fun _ => ?_, fun hph => by simp [hp] at hph⟩
      have hcr := card_replace (TaskState.fetchDone res) hm
      have := h1 (Or.inl hp)
      show (TaskState.fetchDone res ::ₘ s.processing.erase .fetchPending).card ≤ 1
      omega
  | fetchRaise hp hm =>
      refine ⟨fun _ => ?_, fun hph => by simp [hp] at hph⟩
      have hcr := card_replace TaskState.fetchRaised hm
      have := h1 (Or.inl hp)
      show (TaskState.fetchRaised ::ₘ s.processing.erase .fetchPending).card ≤ 1
      omega
  | procStart hp hm =>
      refine ⟨fun _ => ?_, fun hph => by simp [hp] at hph⟩
      have hcr := card_replace TaskState.procActive hm
      have := h1 (Or.inl hp)
      show (TaskState.procActive ::ₘ s.processing.erase .procSpawned).card ≤ 1
      omega
  | procFinish hp hm =>
      refine ⟨fun _ => ?_, fun hph => by simp [hp] at hph⟩
      have hcr := card_replace TaskState.procDone hm
      have := h1 (Or.inl hp)
      show (TaskState.procDone ::ₘ s.processing.erase .procActive).card ≤ 1
      omega
  | awaitContinue done first hp hle hf hfin hnr hnb =>
      refine ⟨fun hph => by simp at hph, fun _ => ?_⟩
      have hd1 : 1 ≤ done.card := Multiset.card_pos_iff_exists_mem.mpr ⟨first, hf⟩
      have hd2 : done.card ≤ s.processing.card := Multiset.card_le_card hle
      have hsub : (s.processing - done).card = s.processing.card - done.card :=
        Multiset.card_sub hle
      have := h1 (Or.inl hp)
      show (s.processing - done).card = 0
      omega
  | awaitBreak done first hp hle hf hfin hnr hb =>
      refine ⟨fun hph => by simp at hph, fun _ => ?_⟩
      have hd1 : 1 ≤ done.card := Multiset.card_pos_iff_exists_mem.mpr ⟨first, hf⟩
      have hd2 : done.card ≤ s.processing.card := Multiset.card_le_card hle
      have hsub : (s.processing - done).card = s.processing.card - done.card :=
        Multiset.card_sub hle
      have := h1 (Or.inl hp)
      show (s.processing - done).card = 0
      omega
  | awaitRaised done hp hle hf hfin hcard =>
      exact ⟨fun _ => h1 (Or.inl hp), fun hph => by simp at hph⟩
  | awaitEmpty hp hz =>
      refine ⟨fun _ => ?_, fun hph => by simp at hph⟩
      show s.processing.card ≤ 1
      rw [hz]
      simp
  | close force =>
      exact ⟨fun hph => h1 hph, fun hph => h2 hph⟩

lemma step_liveInv {N : ℕ} {s s' : WorkerState} (h : Step N s s') (hl : LiveInv s) :
    LiveInv s' := by
  cases h with
  | runStart hp hr => exact fun _ => ⟨rfl, rfl⟩
  | headExit hp hc => exact fun hph => by simp at hph
  | spawn hp hc => exact fun _ => hl (Or.inl hp)
  | fetchFinish res hp hm => exact fun _ => hl (Or.inr (Or.inl hp))
  | fetchRaise hp hm => exact fun _ => hl (Or.inr (Or.inl hp))
  | procStart hp hm => exact fun _ => hl (Or.inr (Or.inl hp))
  | procFinish hp hm => exact fun _ => hl (Or.inr (Or.inl hp))
  | awaitContinue done first hp hle hf hfin hnr hnb =>
      exact fun _ => hl (Or.inr (Or.inl hp))
  | awaitBreak done first hp hle hf hfin hnr hb => exact fun hph => by simp at hph
  | awaitRaised done hp hle hf hfin hcard => exact fun _ => hl (Or.inr (Or.inl hp))
  | awaitEmpty hp hz => exact fun _ => hl (Or.inr (Or.inl hp))
  | close force => exact fun hph => hl hph

lemma reachable_sizeInv {N : ℕ} {s : WorkerState} (h : Reachable N s) : SizeInv s := by
  induction h with
  | init => exact ⟨fun hph => by simp [initState] at hph, fun _ => rfl⟩
  | step s s' hr hstep ih => exact step_sizeInv hstep ih

lemma reachable_liveInv {N : ℕ} {s : WorkerState} (h : Reachable N s) : LiveInv s := by
  induction h with
  | init => exact fun hph => by simp [initState] at hph
  | step s s' hr hstep ih => exact step_liveInv hstep ih

lemma reachable_card_le_one {N : ℕ} {s : WorkerState} (h : Reachable N s) :
    s.processing.card ≤ 1 := by
  obtain ⟨h1, h2⟩ := reachable_sizeInv h
  cases hph : s.phase with
  | notStarted => have := h2 (Or.inl hph); omega
  | head => have := h2 (Or.inr (Or.inl hph)); omega
  | awaiting => exact h1 (Or.inl hph)
  | stopped => have := h2 (Or.inr (Or.inr hph)); omega
  | errored => exact h1 (Or.inr hph)

/-- C1: in every state of a run with configured concurrency `N >= 1`, the
pending-operations set `self.processing` holds at most `N` in-flight
fetch/process tasks, at most one of them a fetch operation, and the active
set `self.jobs` holds at most `N` entries. -/
theorem worker_concurrency_bound (N : ℕ) (s : WorkerState)
    (hN : 1 ≤ N) (hs : Reachable N s) :
    s.processing.card ≤ N ∧ fetchCount s.processing ≤ 1 ∧
      activeJobsCount s.processing ≤ N := by
  have hc := reachable_card_le_one hs
  have hf : fetchCount s.processing ≤ s.processing.card :=
    Multiset.card_le_card (Multiset.filter_le _ _)
  have ha : activeJobsCount s.processing ≤ s.processing.card :=
    Multiset.card_le_card (Multiset.filter_le _ _)
  exact ⟨hc.trans hN, hf.trans hc, (ha.trans hc).trans hN⟩

/-- Witness for C1 at a concrete input: concurrency 1, the initial state. -/
theorem worker_concurrency_bound_witness :
    initState.processing.card ≤ 1 ∧ fetchCount initState.processing ≤ 1 ∧
      activeJobsCount initState.processing ≤ 1 :=
  worker_concurrency_bound 1 initState (by decide) Reachable.init

lemma errored_step_phase {N : ℕ} {u u' : WorkerState} (h : Step N u u')
    (hu : u.phase = .errored) : u'.phase = .errored := by
  cases h with
  | runStart hp hr => simp [hu] at hp
  | headExit hp hc => simp [hu] at hp
  | spawn hp hc => simp [hu] at hp
  | fetchFinish res hp hm => simp [hu] at hp
  | fetchRaise hp hm => simp [hu] at hp
  | procStart hp hm => simp [hu] at hp
  | procFinish hp hm => simp [hu] at hp
  | awaitContinue done first hp hle hf hfin hnr hnb => simp [hu] at hp
  | awaitBreak done first hp hle hf hfin hnr hb => simp [hu] at hp
  | awaitRaised done hp hle hf hfin hcard => simp [hu] at hp
  | awaitEmpty hp hz => simp [hu] at hp
  | close force => exact hu

/-- C4: when the `await` racing the pending operations fails in a reachable
state (the step from the `awaiting` phase to the `errored` phase, via the
`except` branch at lines 125-129), the loop returns at once: the resulting
state still has `running = true` and both timers running (the cleanup at
lines 131-133 is skipped), and no further loop step is possible from it. -/
theorem run_race_error_skips_cleanup (N : ℕ) (s s' : WorkerState)
    (hs : Reachable N s) (hstep : Step N s s')
    (haw : s.phase = .awaiting) (herr : s'.phase = .errored) :
    s'.running = true ∧ s'.timersActive = true ∧
      ∀ s'' : WorkerState, Step N s' s'' → s''.phase = .errored := by
  have hlive := reachable_liveInv hs
  have hrun := hlive (Or.inr (Or.inl haw))
  cases hstep with
  | runStart hp hr => simp [haw] at hp
  | headExit hp hc => simp [haw] at hp
  | spawn hp hc => simp [haw] at hp
  | fetchFinish res hp hm => simp [haw] at herr
  | fetchRaise hp hm => simp [haw] at herr
  | procStart hp hm => simp [haw] at herr
  | procFinish hp hm => simp [haw] at herr
  | awaitContinue done first hp hle hf hfin hnr hnb => simp at herr
  | awaitBreak done first hp hle hf hfin hnr hb => simp at herr
  | awaitRaised done hp hle hf hfin hcard =>
      exact ⟨hrun.1, hrun.2, fun s'' h2 => errored_step_phase h2 rfl⟩
  | awaitEmpty hp hz =>
      exact ⟨hrun.1, hrun.2, fun s'' h2 => errored_step_phase h2 rfl⟩
  | close force => simp [haw] at herr

/-- The loop state after `run()` has started: both timers running, loop at
its head with no candidate job and nothing in flight. -/
def wsHead : WorkerState :=
  { running := true, closing := false, forceClosing := false, closed := false,
    timersActive := true, job := none, processing := 0, phase := .head }

/-- The head state after a graceful `close()` call. -/
def wsHeadClosing : WorkerState := { wsHead with closing := true }

/-- Awaiting with an empty pending set: reached when the worker is closing,
so no fetch task was spawned before the `await` at line 118. -/
def wsAwaitClosing : WorkerState := { wsHeadClosing with phase := .awaiting }

/-- The error exit of the loop from `wsAwaitClosing` (the `await` on an empty
set raises, the `except` branch returns without cleanup). -/
def wsErrored : WorkerState := { wsAwaitClosing with phase := .errored }

lemma reachable_wsHead : Reachable 1 wsHead :=
  Reachable.step _ _ Reachable.init (Step.runStart initState rfl rfl)

lemma reachable_wsHeadClosing : Reachable 1 wsHeadClosing :=
  Reachable.step _ _ reachable_wsHead (Step.close wsHead false)

lemma reachable_wsAwaitClosing : Reachable 1 wsAwaitClosing :=
  Reachable.step _ _ reachable_wsHeadClosing (Step.spawn wsHeadClosing rfl rfl)

/-- Witness for C4 at a concrete input: the race fails (empty pending set)
while the worker is draining. -/
theorem run_race_error_skips_cleanup_witness :
    wsErrored.running = true ∧ wsErrored.timersActive = true ∧
      ∀ s'' : WorkerState, Step 1 wsErrored s'' → s''.phase = .errored :=
  run_race_error_skips_cleanup 1 wsAwaitClosing wsErrored reachable_wsAwaitClosing
    (Step.awaitEmpty wsAwaitClosing rfl rfl) rfl rfl

/-- C7 amended: of the lifecycle flags, `closing` and `forceClosing` are
monotonic across every operation of one worker incarnation: once set to true
they are never reset. (`running` is not: the loop's normal exit at line 131
resets it to false, see `lifecycle_flags_not_all_monotone`.) -/
theorem closing_forceClosing_monotone (N : ℕ) (s s' : WorkerState)
    (h : Step N s s') :
    (s.closing = true → s'.closing = true) ∧
      (s.forceClosing = true → s'.forceClosing = true) := by
  cases h with
  | runStart hp hr => exact ⟨id, id⟩
  | headExit hp hc => exact ⟨id, id⟩
  | spawn hp hc => exact ⟨id, id⟩
  | fetchFinish res hp hm => exact ⟨id, id⟩
  | fetchRaise hp hm => exact ⟨id, id⟩
  | procStart hp hm => exact ⟨id, id⟩
  | procFinish hp hm => exact ⟨id, id⟩
  | awaitContinue done first hp hle hf hfin hnr hnb => exact ⟨id, id⟩
  | awaitBreak done first hp hle hf hfin hnr hb => exact ⟨id, id⟩
  | awaitRaised done hp hle hf hfin hcard => exact ⟨id, id⟩
  | awaitEmpty hp hz => exact ⟨id, id⟩
  | close force =>
      refine ⟨fun _ => rfl, fun hf => ?_⟩
      show (s.forceClosing || force) = true
      rw [hf]
      rfl

/-- The draining state `wsAwaitClosing` after a forced `close()` call. -/
def wsAwaitForce : WorkerState := { wsAwaitClosing with forceClosing := true }

/-- Witness for the amended C7 at a concrete input: a forced close issued in
a state whose `closing` flag is already set. -/
theorem closing_forceClosing_monotone_witness :
    (wsAwaitClosing.closing = true → wsAwaitForce.closing = true) ∧
      (wsAwaitClosing.forceClosing = true → wsAwaitForce.forceClosing = true) :=
  closing_forceClosing_monotone 1 wsAwaitClosing wsAwaitForce
    (Step.close wsAwaitClosing true)

/-- Awaiting with one pending fetch task, spawned at the loop head before any
close call. -/
def wsAwaitFetch : WorkerState :=
  { wsHead with processing := {TaskState.fetchPending}, phase := .awaiting }

/-- The same state after a graceful `close()` lands while the loop awaits. -/
def wsAwaitFetchClosing : WorkerState := { wsAwaitFetch with closing := true }

/-- The fetch task then finishes with no job (timeout / torn connection). -/
def wsAwaitFetchDone : WorkerState :=
  { wsAwaitFetchClosing with processing := {TaskState.fetchDone none} }

/-- The loop consumes the empty fetch result, takes the `break` at line 121
and runs the cleanup at lines 131-133, resetting `running` to false. -/
def wsStopped : WorkerState :=
  { wsAwaitFetchClosing with processing := 0, running := false, timersActive := false, phase := .stopped }

lemma reachable_wsAwaitFetch : Reachable 1 wsAwaitFetch :=
  Reachable.step _ _ reachable_wsHead (Step.spawn wsHead rfl rfl)

lemma reachable_wsAwaitFetchClosing : Reachable 1 wsAwaitFetchClosing :=
  Reachable.step _ _ reachable_wsAwaitFetch (Step.close wsAwaitFetch false)

lemma reachable_wsAwaitFetchDone : Reachable 1 wsAwaitFetchDone :=
  Reachable.step _ _ reachable_wsAwaitFetchClosing
    (Step.fetchFinish wsAwaitFetchClosing none rfl (by decide))

lemma step_wsStopped : Step 1 wsAwaitFetchDone wsStopped :=
  Step.awaitBreak wsAwaitFetchDone {TaskState.fetchDone none} (TaskState.fetchDone none)
    rfl (le_refl _) (by decide) (by decide) (by decide) ⟨Or.inl rfl, rfl⟩

/-- C7 counterexample: the claim that all three lifecycle flags are monotonic
is false for `running`. In the concrete run init, runStart, spawn a fetch,
graceful close, fetch finishes empty, the loop takes the `break` at line 121
and the cleanup at line 131 resets `running` from true to false. -/
theorem lifecycle_flags_not_all_monotone :
    ¬ ∀ (s s' : WorkerState), Reachable 1 s → Step 1 s s' →
        ((s.running = true → s'.running = true) ∧
          (s.closing = true → s'.closing = true) ∧
          (s.forceClosing = true → s'.forceClosing = true)) := by
  intro hmono
  have h :=
    (hmono wsAwaitFetchDone wsStopped reachable_wsAwaitFetchDone step_wsStopped).1 rfl
  exact absurd h (by decide)
